import Mathlib

/-!
Verification of the declarative `ManifestReconciler` of the module-manager
repository (package `declarative`).

The Go reconciler is shallowly embedded as executable Lean functions.  One
invocation of `ManifestReconciler.Reconcile` ("a reconciliation pass") is a
pure function of

  * the representation the reconciler was injected with (`ObjRep`): the
    strongly-typed prototype (`types.CustomObject`) or a generic
    `*unstructured.Unstructured` prototype,
  * the engine options (`manifestOptions`, mutable on the reconciler value),
  * the behaviour of the external collaborators for this pass (`Env`:
    whether the resource exists, the result of `strvals.ParseInto` on the
    chart flags, the results of `Install`/`Uninstall`, the results of the
    client `Update`/`Status().Update` calls), and
  * the persisted resource value (`Resource`).

It returns the Go return value (`Outcome`: the `(ctrl.Result{}, error)` pair
or a runtime panic), the in-memory resource after the pass, the engine
options after the pass, and the ordered trace of side effects performed
(`Effect`): client writes, installer calls.

External libraries (apimachinery converters, controllerutil, helm strvals,
the manifest installer) are modelled at their interfaces, exactly as the
source calls them.  Two genuine Go-level runtime behaviours of the source
are modelled explicitly because theorems below depend on them:

  * `prepareInstallInfo` declares `var unstructuredObj *unstructured.Unstructured`
    (a nil pointer) and in the `types.CustomObject` branch assigns to
    `unstructuredObj.Object` before ever allocating the pointee: a guaranteed
    nil-pointer-dereference panic.
  * `HandleInitialState` writes `labels[key] = value` where `labels` is the
    result of `GetLabels()`, which is a nil map when the resource has no
    labels: assignment into a nil map panics.
-/

/-- The deletion finalizer owned by the reconciler (constant
`deletionFinalizer = "custom-deletion-finalizer"` in the source). -/
def deletionFinalizer : String := "custom-deletion-finalizer"

/-- `types.CustomStateProcessing`: the string value of the `Processing` state. -/
def CustomStateProcessing : String := "Processing"

/-- `types.CustomStateDeleting`: the string value of the `Deleting` state. -/
def CustomStateDeleting : String := "Deleting"

/-- `types.CustomStateError`: the string value of the `Error` state. -/
def CustomStateError : String := "Error"

/-- `types.CustomStateReady`: the string value of the `Ready` state. -/
def CustomStateReady : String := "Ready"

/-- `types.CustomObjectSpec`: chart locator, release name and free-form
chart flags, read by `getSpecFromObjectInstance`. -/
structure CustomObjectSpec where
  chartPath : String
  releaseName : String
  chartFlags : String
  deriving DecidableEq, Repr

/-- `types.CustomObjectStatus`: the persisted status block, `state` (a string
enum whose empty string is the initial state) and the ordered condition
list.  Individual condition entries are opaque to the reconciler, so they
are modelled as strings. -/
structure CustomObjectStatus where
  state : String
  conditions : List String
  deriving DecidableEq, Repr

/-- The representation the reconciler prototype was injected with: the
strongly-typed `types.CustomObject` or a generic `*unstructured.Unstructured`. -/
inductive ObjRep
  | typed
  | generic
  deriving DecidableEq, Repr

/-- The persisted custom resource as the reconciler sees it: finalizers,
deletion intent (`GetDeletionTimestamp().IsZero()` negated), the labels map
(`none` models a nil Go map, `some` a non-nil one), spec and status. -/
structure Resource where
  finalizers : List String
  deletionRequested : Bool
  labels : Option (List (String × String))
  spec : CustomObjectSpec
  status : CustomObjectStatus
  deriving DecidableEq, Repr

/-- Go `error` values that the reconciler produces or passes through. -/
inductive GoError
  | parseError (msg : String)
  | typeMismatch (namespacedName : String)
  | clientError (msg : String)
  | installerError (msg : String)
  deriving DecidableEq, Repr

/-- `manifestOptions`: the options stored mutably on the reconciler value. -/
structure manifestOptions where
  force : Bool
  verify : Bool
  resourceLabels : List (String × String)
  deriving DecidableEq, Repr

/-- The behaviour of the external collaborators during one pass: whether the
`Get` finds the resource, the result of `strvals.ParseInto` on this pass's
chart flags, the `(bool, error)` results of `Install` and `Uninstall`, and
the errors (if any) returned by the client `Update` and `Status().Update`
calls. -/
structure Env where
  found : Bool
  flagsParseErr : Option GoError
  installReady : Bool
  installErr : Option GoError
  uninstallRemoved : Bool
  uninstallErr : Option GoError
  updateErr : Option GoError
  statusUpdateErr : Option GoError
  deriving DecidableEq, Repr

/-- The observable return of one pass: `ok` is `(ctrl.Result{}, nil)` (the
source never sets `Requeue`, so `ok` always means "empty result, no
requeue"), `err` is `(ctrl.Result{}, e)`, and `panicked` is a Go runtime
panic escaping the function. -/
inductive Outcome
  | ok
  | err (e : GoError)
  | panicked (msg : String)
  deriving DecidableEq, Repr

/-- A side effect performed during a pass, in order: a metadata `Update`
(recording the finalizers and labels written), a `Status().Update`
(recording the status written), or a call into the installer. -/
inductive Effect
  | update (finalizers : List String) (labels : Option (List (String × String)))
  | statusUpdate (status : CustomObjectStatus)
  | installCall
  | uninstallCall
  deriving DecidableEq, Repr

/-- The complete result of one reconciliation pass. -/
structure PassResult where
  outcome : Outcome
  obj : Resource
  opts : manifestOptions
  trace : List Effect
  deriving DecidableEq, Repr

/-- Turn the error of a client call into the pass outcome (`return
ctrl.Result{}, r.nativeClient...Update(...)`). -/
def errToOutcome : Option GoError → Outcome
  | none => Outcome.ok
  | some e => Outcome.err e

/-- `getTypeError`: the error for an unsupported object representation. -/
def getTypeError (namespacedName : String) : GoError :=
  GoError.typeMismatch namespacedName

/-- `controllerutil.AddFinalizer`: appends the finalizer if absent; returns
the new finalizer list and whether the object changed. -/
def AddFinalizer (finalizers : List String) (f : String) : List String × Bool :=
  if f ∈ finalizers then (finalizers, false) else (finalizers ++ [f], true)

/-- `controllerutil.RemoveFinalizer`: removes every occurrence of the
finalizer; returns the new list and whether the object changed. -/
def RemoveFinalizer (finalizers : List String) (f : String) : List String × Bool :=
  if f ∈ finalizers then (finalizers.filter (fun x => x ≠ f), true) else (finalizers, false)

/-- `getStatusFromObjectInstance`: for a typed object, `GetStatus()`; for a
generic object, `unstructured.NestedMap(_, "status")` followed by
`FromUnstructured`.  The apimachinery converters are external collaborators
assumed faithful, so both branches yield the resource's status. -/
def getStatusFromObjectInstance (rep : ObjRep) (obj : Resource) : Except GoError CustomObjectStatus :=
  match rep with
  | ObjRep.typed => Except.ok obj.status
  | ObjRep.generic => Except.ok obj.status

/-- `getSpecFromObjectInstance`: for a typed object, `GetSpec()`; for a
generic object, `unstructured.NestedMap(_, "spec")` followed by
`FromUnstructured` (converters assumed faithful). -/
def getSpecFromObjectInstance (rep : ObjRep) (obj : Resource) : Except GoError CustomObjectSpec :=
  match rep with
  | ObjRep.typed => Except.ok obj.spec
  | ObjRep.generic => Except.ok obj.spec

/-- `setStatusForObjectInstance`: for a typed object, `SetStatus(status)`;
for a generic object, `ToUnstructured` + `SetNestedMap(_, _, "status")`
(converters assumed faithful). -/
def setStatusForObjectInstance (rep : ObjRep) (obj : Resource) (status : CustomObjectStatus) :
    Except GoError Resource :=
  match rep with
  | ObjRep.typed => Except.ok { obj with status := status }
  | ObjRep.generic => Except.ok { obj with status := status }

/-- `manifest.ChartInfo` as filled in by `prepareInstallInfo`. -/
structure ChartInfo where
  chartPath : String
  releaseName : String
  deriving DecidableEq, Repr

/-- `manifest.InstallInfo` as filled in by `prepareInstallInfo`: the chart
info, the base resource handed to the installer, and the `CheckReadyStates`
flag.  The context, cluster handles and check function carry no information
relevant to the verified properties and are omitted. -/
structure InstallInfo where
  chartInfo : ChartInfo
  baseResource : Resource
  checkReadyStates : Bool
  deriving DecidableEq, Repr

/-- The result of a Go call that may also panic at runtime. -/
inductive GoResult (α : Type) where
  | ok (a : α)
  | err (e : GoError)
  | panicked (msg : String)
  deriving DecidableEq, Repr

/-- The Go runtime message for dereferencing a nil pointer. -/
def nilPointerPanicMsg : String :=
  "runtime error: invalid memory address or nil pointer dereference"

/-- The Go runtime message for writing into a nil map. -/
def nilMapPanicMsg : String := "assignment to entry in nil map"

/-- `ManifestReconciler.prepareInstallInfo`.  The source declares
`var unstructuredObj *unstructured.Unstructured` (nil) and then, in the
`types.CustomObject` branch, executes
`unstructuredObj.Object, err = runtime.DefaultUnstructuredConverter.ToUnstructured(typedObject)`:
the assignment dereferences the nil pointer, so the typed branch always
panics before the conversion result can be stored.  The
`*unstructured.Unstructured` branch reuses the object itself as the base
resource. -/
def prepareInstallInfo (rep : ObjRep) (obj : Resource) (chartPath releaseName : String) :
    GoResult InstallInfo :=
  match rep with
  | ObjRep.typed => GoResult.panicked nilPointerPanicMsg
  | ObjRep.generic =>
      GoResult.ok
        { chartInfo := { chartPath := chartPath, releaseName := releaseName }
          baseResource := obj
          checkReadyStates := true }

/-- `ManifestReconciler.getManifestClient`: parses the chart flags with
`strvals.ParseInto` and otherwise builds the external manifest client
(`manifest.NewOperations`, an external collaborator assumed available).
Returns the parse error, if any, of this pass's flags. -/
def getManifestClient (env : Env) (_configString : String) : Option GoError :=
  env.flagsParseErr

/-- One `labels[key] = value` step on a non-nil Go map, modelled on an
association list. -/
def setLabel (ls : List (String × String)) (k v : String) : List (String × String) :=
  if ls.any (fun p => p.1 = k) then
    ls.map (fun p => if p.1 = k then (k, v) else p)
  else ls ++ [(k, v)]

/-- The `for key, value := range r.options.resourceLabels` loop of
`HandleInitialState` (keys are distinct, so list order does not affect the
resulting map). -/
def applyResourceLabels (ls rls : List (String × String)) : List (String × String) :=
  rls.foldl (fun acc p => setLabel acc p.1 p.2) ls

/-- The repeated commit pattern of the source: `setStatusForObjectInstance`
followed by `return ctrl.Result{}, r.nativeClient.Status().Update(...)`.
`pre` is the effect trace accumulated before the commit. -/
def commitState (opts : manifestOptions) (env : Env) (rep : ObjRep) (obj : Resource)
    (status2 : CustomObjectStatus) (pre : List Effect) : PassResult :=
  match setStatusForObjectInstance rep obj status2 with
  | Except.error e => ⟨Outcome.err e, obj, opts, pre⟩
  | Except.ok obj2 =>
      ⟨errToOutcome env.statusUpdateErr, obj2, opts, pre ++ [Effect.statusUpdate status2]⟩

/-- `ManifestReconciler.HandleInitialState`: if resource labels are pending
in the options, merge them into the object's labels (a nil labels map makes
the first write panic), clear the option, and `Update`; otherwise set the
state to `Processing` and commit the status. -/
def HandleInitialState (opts : manifestOptions) (env : Env) (rep : ObjRep) (obj : Resource) :
    PassResult :=
  match getStatusFromObjectInstance rep obj with
  | Except.error e => ⟨Outcome.err e, obj, opts, []⟩
  | Except.ok status =>
    if opts.resourceLabels ≠ [] then
      match obj.labels with
      | none => ⟨Outcome.panicked nilMapPanicMsg, obj, opts, []⟩
      | some ls =>
          let obj2 : Resource := { obj with labels := some (applyResourceLabels ls opts.resourceLabels) }
          let opts2 : manifestOptions := { opts with resourceLabels := [] }
          ⟨errToOutcome env.updateErr, obj2, opts2, [Effect.update obj2.finalizers obj2.labels]⟩
    else
      commitState opts env rep obj { status with state := CustomStateProcessing } []

/-- `ManifestReconciler.HandleProcessingState`: read spec and status, build
the manifest client (flag-parse failure sets `Error` and commits), build the
install info, call `Install`; an install error sets `Error` and commits,
`ready` sets `Ready` and commits, otherwise the pass ends with no write. -/
def HandleProcessingState (opts : manifestOptions) (env : Env) (rep : ObjRep) (obj : Resource) :
    PassResult :=
  match getSpecFromObjectInstance rep obj with
  | Except.error e => ⟨Outcome.err e, obj, opts, []⟩
  | Except.ok spec =>
    match getStatusFromObjectInstance rep obj with
    | Except.error e => ⟨Outcome.err e, obj, opts, []⟩
    | Except.ok status =>
      match getManifestClient env spec.chartFlags with
      | some _ => commitState opts env rep obj { status with state := CustomStateError } []
      | none =>
        match prepareInstallInfo rep obj spec.chartPath spec.releaseName with
        | GoResult.panicked m => ⟨Outcome.panicked m, obj, opts, []⟩
        | GoResult.err e => ⟨Outcome.err e, obj, opts, []⟩
        | GoResult.ok _ =>
          match env.installErr with
          | some _ =>
              commitState opts env rep obj { status with state := CustomStateError }
                [Effect.installCall]
          | none =>
            if env.installReady then
              commitState opts env rep obj { status with state := CustomStateReady }
                [Effect.installCall]
            else ⟨Outcome.ok, obj, opts, [Effect.installCall]⟩

/-- `ManifestReconciler.HandleDeletingState`: like the processing handler
but calls `Uninstall`; an uninstall error sets `Error` and commits, and
`readyToBeDeleted` removes the deletion finalizer (with an `Update` when the
object changed). -/
def HandleDeletingState (opts : manifestOptions) (env : Env) (rep : ObjRep) (obj : Resource) :
    PassResult :=
  match getSpecFromObjectInstance rep obj with
  | Except.error e => ⟨Outcome.err e, obj, opts, []⟩
  | Except.ok spec =>
    match getStatusFromObjectInstance rep obj with
    | Except.error e => ⟨Outcome.err e, obj, opts, []⟩
    | Except.ok status =>
      match getManifestClient env spec.chartFlags with
      | some _ => commitState opts env rep obj { status with state := CustomStateError } []
      | none =>
        match prepareInstallInfo rep obj spec.chartPath spec.releaseName with
        | GoResult.panicked m => ⟨Outcome.panicked m, obj, opts, []⟩
        | GoResult.err e => ⟨Outcome.err e, obj, opts, []⟩
        | GoResult.ok _ =>
          match env.uninstallErr with
          | some _ =>
              commitState opts env rep obj { status with state := CustomStateError }
                [Effect.uninstallCall]
          | none =>
            if env.uninstallRemoved then
              let fr := RemoveFinalizer obj.finalizers deletionFinalizer
              if fr.2 then
                let obj2 : Resource := { obj with finalizers := fr.1 }
                ⟨errToOutcome env.updateErr, obj2, opts,
                  [Effect.uninstallCall, Effect.update obj2.finalizers obj2.labels]⟩
              else ⟨Outcome.ok, obj, opts, [Effect.uninstallCall]⟩
            else ⟨Outcome.ok, obj, opts, [Effect.uninstallCall]⟩

/-- `ManifestReconciler.HandleErrorState`: unconditionally set the state
back to `Processing` and commit. -/
def HandleErrorState (opts : manifestOptions) (env : Env) (rep : ObjRep) (obj : Resource) :
    PassResult :=
  match getStatusFromObjectInstance rep obj with
  | Except.error e => ⟨Outcome.err e, obj, opts, []⟩
  | Except.ok status =>
      commitState opts env rep obj { status with state := CustomStateProcessing } []

/-- `ManifestReconciler.HandleReadyState`: a no-op ("check consistency"
placeholder) returning nil. -/
def HandleReadyState (opts : manifestOptions) (_env : Env) (_rep : ObjRep) (obj : Resource) :
    PassResult :=
  ⟨Outcome.ok, obj, opts, []⟩

/-- `ManifestReconciler.Reconcile`, one full pass.  The source first asserts
`r.prototype.DeepCopyObject().(types.CustomObject)`: a generic
(`*unstructured.Unstructured`) prototype does not implement that interface,
so the pass fails with `getTypeError` before the resource is even fetched.
For the typed prototype: fetch (not-found ends the pass via
`IgnoreNotFound`), read the status, preempt to `Deleting` when deletion is
requested and the state is not yet `Deleting`, add the deletion finalizer
(returning after the `Update` when it was absent), then dispatch on the
state string. -/
def Reconcile (rep : ObjRep) (opts : manifestOptions) (env : Env) (obj : Resource) : PassResult :=
  match rep with
  | ObjRep.generic => ⟨Outcome.err (getTypeError "req"), obj, opts, []⟩
  | ObjRep.typed =>
    if env.found = false then ⟨Outcome.ok, obj, opts, []⟩
    else
      match getStatusFromObjectInstance ObjRep.typed obj with
      | Except.error e => ⟨Outcome.err e, obj, opts, []⟩
      | Except.ok status =>
        if obj.deletionRequested ∧ status.state ≠ CustomStateDeleting then
          commitState opts env ObjRep.typed obj { status with state := CustomStateDeleting } []
        else
          let af := AddFinalizer obj.finalizers deletionFinalizer
          if af.2 then
            let obj2 : Resource := { obj with finalizers := af.1 }
            ⟨errToOutcome env.updateErr, obj2, opts, [Effect.update obj2.finalizers obj2.labels]⟩
          else
            if status.state = "" then HandleInitialState opts env ObjRep.typed obj
            else if status.state = CustomStateProcessing then
              HandleProcessingState opts env ObjRep.typed obj
            else if status.state = CustomStateDeleting then
              HandleDeletingState opts env ObjRep.typed obj
            else if status.state = CustomStateError then
              HandleErrorState opts env ObjRep.typed obj
            else if status.state = CustomStateReady then
              HandleReadyState opts env ObjRep.typed obj
            else ⟨Outcome.ok, obj, opts, []⟩

/-! ### Characterization lemmas for the handlers and the pass -/

/-- `HandleInitialState` characterized by whether labels are pending and
whether the object's labels map is nil. -/
theorem handleInitial_eq (opts : manifestOptions) (env : Env) (rep : ObjRep) (obj : Resource) :
    HandleInitialState opts env rep obj =
      if opts.resourceLabels = [] then
        ⟨errToOutcome env.statusUpdateErr,
          { obj with status := { obj.status with state := CustomStateProcessing } }, opts,
          [Effect.statusUpdate { obj.status with state := CustomStateProcessing }]⟩
      else
        match obj.labels with
        | none => ⟨Outcome.panicked nilMapPanicMsg, obj, opts, []⟩
        | some ls =>
            ⟨errToOutcome env.updateErr,
              { obj with labels := some (applyResourceLabels ls opts.resourceLabels) },
              { opts with resourceLabels := [] },
              [Effect.update obj.finalizers (some (applyResourceLabels ls opts.resourceLabels))]⟩ := by
  cases rep <;> by_cases h : opts.resourceLabels = [] <;> cases hl : obj.labels <;>
    simp [HandleInitialState, getStatusFromObjectInstance, commitState,
      setStatusForObjectInstance, h, hl]

/-- On the typed representation, the processing handler either commits
`Error` (flag-parse failure) or panics on the nil pointer in
`prepareInstallInfo`; `Install` is never reached. -/
theorem handleProcessing_typed (opts : manifestOptions) (env : Env) (obj : Resource) :
    HandleProcessingState opts env ObjRep.typed obj =
      match env.flagsParseErr with
      | some _ =>
          ⟨errToOutcome env.statusUpdateErr,
            { obj with status := { obj.status with state := CustomStateError } }, opts,
            [Effect.statusUpdate { obj.status with state := CustomStateError }]⟩
      | none => ⟨Outcome.panicked nilPointerPanicMsg, obj, opts, []⟩ := by
  cases h : env.flagsParseErr <;>
    simp [HandleProcessingState, getSpecFromObjectInstance, getStatusFromObjectInstance,
      getManifestClient, prepareInstallInfo, commitState, setStatusForObjectInstance, h]

/-- On the typed representation, the deleting handler either commits `Error`
(flag-parse failure) or panics on the nil pointer in `prepareInstallInfo`;
`Uninstall` is never reached. -/
theorem handleDeleting_typed (opts : manifestOptions) (env : Env) (obj : Resource) :
    HandleDeletingState opts env ObjRep.typed obj =
      match env.flagsParseErr with
      | some _ =>
          ⟨errToOutcome env.statusUpdateErr,
            { obj with status := { obj.status with state := CustomStateError } }, opts,
            [Effect.statusUpdate { obj.status with state := CustomStateError }]⟩
      | none => ⟨Outcome.panicked nilPointerPanicMsg, obj, opts, []⟩ := by
  cases h : env.flagsParseErr <;>
    simp [HandleDeletingState, getSpecFromObjectInstance, getStatusFromObjectInstance,
      getManifestClient, prepareInstallInfo, commitState, setStatusForObjectInstance, h]

/-- On the generic representation, the full behaviour of the deleting
handler: flag-parse failure commits `Error`; otherwise `Uninstall` runs: an
error commits `Error`, `removed = true` removes the finalizer (with an
`Update` when present), `removed = false` ends the pass. -/
theorem handleDeleting_generic (opts : manifestOptions) (env : Env) (obj : Resource) :
    HandleDeletingState opts env ObjRep.generic obj =
      match env.flagsParseErr with
      | some _ =>
          ⟨errToOutcome env.statusUpdateErr,
            { obj with status := { obj.status with state := CustomStateError } }, opts,
            [Effect.statusUpdate { obj.status with state := CustomStateError }]⟩
      | none =>
        match env.uninstallErr with
        | some _ =>
            ⟨errToOutcome env.statusUpdateErr,
              { obj with status := { obj.status with state := CustomStateError } }, opts,
              [Effect.uninstallCall, Effect.statusUpdate { obj.status with state := CustomStateError }]⟩
        | none =>
          if env.uninstallRemoved then
            if deletionFinalizer ∈ obj.finalizers then
              ⟨errToOutcome env.updateErr,
                { obj with finalizers := obj.finalizers.filter (fun x => x ≠ deletionFinalizer) },
                opts,
                [Effect.uninstallCall,
                  Effect.update (obj.finalizers.filter (fun x => x ≠ deletionFinalizer)) obj.labels]⟩
            else ⟨Outcome.ok, obj, opts, [Effect.uninstallCall]⟩
          else ⟨Outcome.ok, obj, opts, [Effect.uninstallCall]⟩ := by
  cases h : env.flagsParseErr <;> cases hu : env.uninstallErr <;>
    cases hr : env.uninstallRemoved <;> by_cases hm : deletionFinalizer ∈ obj.finalizers <;>
      simp [HandleDeletingState, getSpecFromObjectInstance, getStatusFromObjectInstance,
        getManifestClient, prepareInstallInfo, commitState, setStatusForObjectInstance,
        RemoveFinalizer, h, hu, hr, hm]

/-- The error handler unconditionally commits `Processing`. -/
theorem handleError_eq (opts : manifestOptions) (env : Env) (rep : ObjRep) (obj : Resource) :
    HandleErrorState opts env rep obj =
      ⟨errToOutcome env.statusUpdateErr,
        { obj with status := { obj.status with state := CustomStateProcessing } }, opts,
        [Effect.statusUpdate { obj.status with state := CustomStateProcessing }]⟩ := by
  cases rep <;>
    simp [HandleErrorState, getStatusFromObjectInstance, commitState, setStatusForObjectInstance]

/-- A pass on the typed representation with deletion requested and a state
other than `Deleting` commits exactly the `Deleting` transition and
dispatches nothing. -/
theorem reconcile_preempt (opts : manifestOptions) (env : Env) (res : Resource)
    (hf : env.found = true) (hd : res.deletionRequested = true)
    (hs : res.status.state ≠ CustomStateDeleting) :
    Reconcile ObjRep.typed opts env res =
      ⟨errToOutcome env.statusUpdateErr,
        { res with status := { res.status with state := CustomStateDeleting } }, opts,
        [Effect.statusUpdate { res.status with state := CustomStateDeleting }]⟩ := by
  simp [Reconcile, getStatusFromObjectInstance, hf, hd, hs, commitState,
    setStatusForObjectInstance]

/-- A pass on the typed representation without deletion preemption and with
the finalizer absent adds the finalizer and returns after the `Update`. -/
theorem reconcile_add_finalizer (opts : manifestOptions) (env : Env) (res : Resource)
    (hf : env.found = true)
    (hnp : ¬(res.deletionRequested = true ∧ res.status.state ≠ CustomStateDeleting))
    (hfin : deletionFinalizer ∉ res.finalizers) :
    Reconcile ObjRep.typed opts env res =
      ⟨errToOutcome env.updateErr,
        { res with finalizers := res.finalizers ++ [deletionFinalizer] }, opts,
        [Effect.update (res.finalizers ++ [deletionFinalizer]) res.labels]⟩ := by
  simp [Reconcile, getStatusFromObjectInstance, hf, hnp, AddFinalizer, hfin]

/-- A pass on the typed representation without deletion preemption and with
the finalizer present dispatches on the state string. -/
theorem reconcile_dispatch (opts : manifestOptions) (env : Env) (res : Resource)
    (hf : env.found = true)
    (hnp : ¬(res.deletionRequested = true ∧ res.status.state ≠ CustomStateDeleting))
    (hfin : deletionFinalizer ∈ res.finalizers) :
    Reconcile ObjRep.typed opts env res =
      if res.status.state = "" then HandleInitialState opts env ObjRep.typed res
      else if res.status.state = CustomStateProcessing then
        HandleProcessingState opts env ObjRep.typed res
      else if res.status.state = CustomStateDeleting then
        HandleDeletingState opts env ObjRep.typed res
      else if res.status.state = CustomStateError then
        HandleErrorState opts env ObjRep.typed res
      else if res.status.state = CustomStateReady then
        HandleReadyState opts env ObjRep.typed res
      else ⟨Outcome.ok, res, opts, []⟩ := by
  simp [Reconcile, getStatusFromObjectInstance, hf, hnp, AddFinalizer, hfin]

/-- No pass through `Reconcile` ever reaches the installer: the generic
representation fails the `types.CustomObject` assertion before fetching the
resource, and on the typed representation `prepareInstallInfo` panics on its
nil pointer before `Install`/`Uninstall` can be called. -/
theorem reconcile_no_installer_calls (rep : ObjRep) (opts : manifestOptions) (env : Env)
    (res : Resource) :
    Effect.installCall ∉ (Reconcile rep opts env res).trace ∧
    Effect.uninstallCall ∉ (Reconcile rep opts env res).trace := by
  cases rep with
  | generic => simp [Reconcile]
  | typed =>
    by_cases hf : env.found = true
    · by_cases hp : res.deletionRequested = true ∧ res.status.state ≠ CustomStateDeleting
      · rw [reconcile_preempt opts env res hf hp.1 hp.2]; simp
      · by_cases hfin : deletionFinalizer ∈ res.finalizers
        · rw [reconcile_dispatch opts env res hf hp hfin]
          split_ifs with h1 h2 h3 h4 h5
          · rw [handleInitial_eq]
            by_cases hr : opts.resourceLabels = []
            · simp [hr]
            · cases hl : res.labels <;> simp [hr, hl]
          · rw [handleProcessing_typed]; cases env.flagsParseErr <;> simp
          · rw [handleDeleting_typed]; cases env.flagsParseErr <;> simp
          · rw [handleError_eq]; simp
          · simp [HandleReadyState]
          · simp
        · rw [reconcile_add_finalizer opts env res hf hp hfin]; simp
    · have hf0 : env.found = false := by
        cases h : env.found
        · rfl
        · exact absurd h hf
      simp [Reconcile, hf0]

/-- A pass through `Reconcile` never removes the deletion finalizer: the
only code that removes it sits behind the `Uninstall` call, which no pass
reaches. -/
theorem reconcile_finalizer_persists (rep : ObjRep) (opts : manifestOptions) (env : Env)
    (res : Resource) (h : deletionFinalizer ∈ res.finalizers) :
    deletionFinalizer ∈ (Reconcile rep opts env res).obj.finalizers := by
  cases rep with
  | generic => simpa [Reconcile] using h
  | typed =>
    by_cases hf : env.found = true
    · by_cases hp : res.deletionRequested = true ∧ res.status.state ≠ CustomStateDeleting
      · rw [reconcile_preempt opts env res hf hp.1 hp.2]; simpa using h
      · rw [reconcile_dispatch opts env res hf hp h]
        split_ifs with h1 h2 h3 h4 h5
        · rw [handleInitial_eq]
          by_cases hr : opts.resourceLabels = []
          · simpa [hr] using h
          · cases hl : res.labels <;> simpa [hr, hl] using h
        · rw [handleProcessing_typed]; cases env.flagsParseErr <;> simpa using h
        · rw [handleDeleting_typed]; cases env.flagsParseErr <;> simpa using h
        · rw [handleError_eq]; simpa using h
        · simpa [HandleReadyState] using h
        · simpa using h
    · have hf0 : env.found = false := by
        cases hb : env.found
        · rfl
        · exact absurd hb hf
      simpa [Reconcile, hf0] using h

/-- When no resource labels are pending in the options, a pass leaves the
engine options untouched (the only option mutation in the source is the
one-shot clearing of `resourceLabels` in `HandleInitialState`). -/
theorem reconcile_opts_invariant (rep : ObjRep) (opts : manifestOptions) (env : Env)
    (res : Resource) (h : opts.resourceLabels = []) :
    (Reconcile rep opts env res).opts = opts := by
  cases rep with
  | generic => simp [Reconcile]
  | typed =>
    by_cases hf : env.found = true
    · by_cases hp : res.deletionRequested = true ∧ res.status.state ≠ CustomStateDeleting
      · rw [reconcile_preempt opts env res hf hp.1 hp.2]
      · by_cases hfin : deletionFinalizer ∈ res.finalizers
        · rw [reconcile_dispatch opts env res hf hp hfin]
          split_ifs with h1 h2 h3 h4 h5
          · rw [handleInitial_eq]; simp [h]
          · rw [handleProcessing_typed]; cases env.flagsParseErr <;> simp
          · rw [handleDeleting_typed]; cases env.flagsParseErr <;> simp
          · rw [handleError_eq]
          · simp [HandleReadyState]
          · simp
        · rw [reconcile_add_finalizer opts env res hf hp hfin]
    · have hf0 : env.found = false := by
        cases hb : env.found
        · rfl
        · exact absurd hb hf
      simp [Reconcile, hf0]

/-! ### Claim theorems -/

/-- C1: for every resource that lacks the deletion finalizer and has no
deletion intent, the pass's whole effect trace is the single metadata
`Update` that appends the finalizer (its first and only mutating action),
no `Install` call occurs in that pass, and in any reachable pass at all an
`Install` call implies the finalizer was already present on the resource. -/
theorem C1_finalizer_before_action :
    (∀ (opts : manifestOptions) (env : Env) (res : Resource),
        env.found = true → deletionFinalizer ∉ res.finalizers →
        res.deletionRequested = false →
        (Reconcile ObjRep.typed opts env res).trace =
            [Effect.update (res.finalizers ++ [deletionFinalizer]) res.labels] ∧
          (Reconcile ObjRep.typed opts env res).obj.finalizers =
            res.finalizers ++ [deletionFinalizer] ∧
          Effect.installCall ∉ (Reconcile ObjRep.typed opts env res).trace) ∧
    (∀ (rep : ObjRep) (opts : manifestOptions) (env : Env) (res : Resource),
        Effect.installCall ∈ (Reconcile rep opts env res).trace →
        deletionFinalizer ∈ res.finalizers) := by
  constructor
  · intro opts env res hf hfin hd
    have hnp : ¬(res.deletionRequested = true ∧ res.status.state ≠ CustomStateDeleting) := by
      simp [hd]
    rw [reconcile_add_finalizer opts env res hf hnp hfin]
    exact ⟨rfl, rfl, by simp⟩
  · intro rep opts env res hmem
    exact absurd hmem (reconcile_no_installer_calls rep opts env res).1

/-- Witness for C1 at a concrete resource without finalizer or deletion
intent. -/
theorem C1_finalizer_before_action_witness :
    deletionFinalizer ∉ ([] : List String) ∧
    (Reconcile ObjRep.typed ⟨false, false, []⟩ ⟨true, none, true, none, false, none, none, none⟩
        ⟨[], false, some [], ⟨"p", "r", ""⟩, ⟨"", []⟩⟩).trace =
      [Effect.update [deletionFinalizer] (some [])] :=
  ⟨by decide,
    (C1_finalizer_before_action.1 ⟨false, false, []⟩
        ⟨true, none, true, none, false, none, none, none⟩
        ⟨[], false, some [], ⟨"p", "r", ""⟩, ⟨"", []⟩⟩ rfl (by decide) rfl).1⟩

/-- C2: for every resource with deletion intent set and a state other than
`Deleting`, the pass commits exactly the transition to `Deleting` before any
state dispatch: the trace is that single status commit, the in-memory state
is `Deleting`, no install call occurs, and no status other than `Deleting`
is committed. -/
theorem C2_deletion_preempts_dispatch (opts : manifestOptions) (env : Env) (res : Resource)
    (hf : env.found = true) (hd : res.deletionRequested = true)
    (hs : res.status.state ≠ CustomStateDeleting) :
    (Reconcile ObjRep.typed opts env res).trace =
        [Effect.statusUpdate { res.status with state := CustomStateDeleting }] ∧
      (Reconcile ObjRep.typed opts env res).obj.status.state = CustomStateDeleting ∧
      Effect.installCall ∉ (Reconcile ObjRep.typed opts env res).trace ∧
      ∀ st : CustomObjectStatus,
        Effect.statusUpdate st ∈ (Reconcile ObjRep.typed opts env res).trace →
        st.state = CustomStateDeleting := by
  rw [reconcile_preempt opts env res hf hd hs]
  refine ⟨rfl, rfl, by simp, ?_⟩
  intro st hst
  have h2 : st = { res.status with state := CustomStateDeleting } := by simpa using hst
  rw [h2]

/-- Witness for C2: a resource in `Processing` with deletion intent set
transitions directly to `Deleting`. -/
theorem C2_deletion_preempts_dispatch_witness :
    ("Processing" : String) ≠ CustomStateDeleting ∧
    (Reconcile ObjRep.typed ⟨false, false, []⟩ ⟨true, none, true, none, false, none, none, none⟩
        ⟨[deletionFinalizer], true, some [], ⟨"p", "r", ""⟩, ⟨"Processing", []⟩⟩).trace =
      [Effect.statusUpdate ⟨"Deleting", []⟩] :=
  ⟨by decide,
    (C2_deletion_preempts_dispatch ⟨false, false, []⟩
        ⟨true, none, true, none, false, none, none, none⟩
        ⟨[deletionFinalizer], true, some [], ⟨"p", "r", ""⟩, ⟨"Processing", []⟩⟩
        rfl rfl (by decide)).1⟩

/-- C10: for every resource whose state string is outside the recognised
set, with the finalizer present and no deletion intent, the pass performs
no action at all: empty trace, unchanged resource and options, and the
`(ctrl.Result{}, nil)` return (no requeue). -/
theorem C10_unknown_state_no_action (opts : manifestOptions) (env : Env) (res : Resource)
    (hf : env.found = true) (hfin : deletionFinalizer ∈ res.finalizers)
    (hd : res.deletionRequested = false)
    (h1 : res.status.state ≠ "") (h2 : res.status.state ≠ CustomStateProcessing)
    (h3 : res.status.state ≠ CustomStateDeleting) (h4 : res.status.state ≠ CustomStateError)
    (h5 : res.status.state ≠ CustomStateReady) :
    Reconcile ObjRep.typed opts env res = ⟨Outcome.ok, res, opts, []⟩ := by
  have hnp : ¬(res.deletionRequested = true ∧ res.status.state ≠ CustomStateDeleting) := by
    simp [hd]
  rw [reconcile_dispatch opts env res hf hnp hfin]
  simp [h1, h2, h3, h4, h5]

/-- Witness for C10 at the unrecognised state string `"Unknown"`. -/
theorem C10_unknown_state_no_action_witness :
    ("Unknown" : String) ≠ CustomStateProcessing ∧
    Reconcile ObjRep.typed ⟨false, false, []⟩ ⟨true, none, true, none, false, none, none, none⟩
        ⟨[deletionFinalizer], false, some [], ⟨"p", "r", ""⟩, ⟨"Unknown", []⟩⟩ =
      ⟨Outcome.ok, ⟨[deletionFinalizer], false, some [], ⟨"p", "r", ""⟩, ⟨"Unknown", []⟩⟩,
        ⟨false, false, []⟩, []⟩ :=
  ⟨by decide,
    C10_unknown_state_no_action ⟨false, false, []⟩
      ⟨true, none, true, none, false, none, none, none⟩
      ⟨[deletionFinalizer], false, some [], ⟨"p", "r", ""⟩, ⟨"Unknown", []⟩⟩
      rfl (by decide) rfl (by decide) (by decide) (by decide) (by decide) (by decide)⟩

/-- C3: in every pass through `Reconcile` (either representation), the
deletion finalizer is removed exactly when that pass's `Uninstall` call
returned `removed = true` with no error — in the current code both sides are
always false, since no pass reaches `Uninstall`.  In addition, on the
generic-representation deleting handler, where `Uninstall` is reachable,
the same equivalence holds contentfully. -/
theorem C3_finalizer_removed_iff_uninstall :
    (∀ (rep : ObjRep) (opts : manifestOptions) (env : Env) (res : Resource),
        (deletionFinalizer ∈ res.finalizers ∧
            deletionFinalizer ∉ (Reconcile rep opts env res).obj.finalizers) ↔
          (Effect.uninstallCall ∈ (Reconcile rep opts env res).trace ∧
            env.uninstallErr = none ∧ env.uninstallRemoved = true)) ∧
    (∀ (opts : manifestOptions) (env : Env) (res : Resource),
        deletionFinalizer ∈ res.finalizers →
        (deletionFinalizer ∉ (HandleDeletingState opts env ObjRep.generic res).obj.finalizers ↔
          (Effect.uninstallCall ∈ (HandleDeletingState opts env ObjRep.generic res).trace ∧
            env.uninstallErr = none ∧ env.uninstallRemoved = true))) := by
  constructor
  · intro rep opts env res
    constructor
    · rintro ⟨hin, hout⟩
      exact absurd (reconcile_finalizer_persists rep opts env res hin) hout
    · rintro ⟨hmem, -, -⟩
      exact absurd hmem (reconcile_no_installer_calls rep opts env res).2
  · intro opts env res hm
    rw [handleDeleting_generic]
    cases h1 : env.flagsParseErr with
    | some e => simpa using hm
    | none =>
      cases h2 : env.uninstallErr with
      | some e => simpa using hm
      | none =>
        cases h3 : env.uninstallRemoved with
        | false => simpa using hm
        | true => simp [hm, List.mem_filter]

/-- Witness for C3 at a concrete generic-handler run whose `Uninstall`
reports `removed = true`: the finalizer is removed. -/
theorem C3_finalizer_removed_iff_uninstall_witness :
    deletionFinalizer ∈ [deletionFinalizer] ∧
    (deletionFinalizer ∉
        (HandleDeletingState ⟨false, false, []⟩ ⟨true, none, true, none, true, none, none, none⟩
          ObjRep.generic
          ⟨[deletionFinalizer], true, some [], ⟨"p", "r", ""⟩, ⟨"Deleting", []⟩⟩).obj.finalizers ↔
      (Effect.uninstallCall ∈
          (HandleDeletingState ⟨false, false, []⟩ ⟨true, none, true, none, true, none, none, none⟩
            ObjRep.generic
            ⟨[deletionFinalizer], true, some [], ⟨"p", "r", ""⟩, ⟨"Deleting", []⟩⟩).trace ∧
        (⟨true, none, true, none, true, none, none, none⟩ : Env).uninstallErr = none ∧
        (⟨true, none, true, none, true, none, none, none⟩ : Env).uninstallRemoved = true)) :=
  ⟨by decide,
    C3_finalizer_removed_iff_uninstall.2 ⟨false, false, []⟩
      ⟨true, none, true, none, true, none, none, none⟩
      ⟨[deletionFinalizer], true, some [], ⟨"p", "r", ""⟩, ⟨"Deleting", []⟩⟩ (by decide)⟩

/-- Counterexample to C4 as stated: a pass on a resource already in
`Deleting` whose chart flags fail to parse commits `Error` — a non-deleting
state — contradicting "no subsequent pass ever sets status.State to a
non-deleting state". -/
theorem C4_counterexample :
    (⟨[deletionFinalizer], true, some [], ⟨"p", "r", "bad"⟩,
        ⟨"Deleting", []⟩⟩ : Resource).status.state = CustomStateDeleting ∧
    (Reconcile ObjRep.typed ⟨false, false, []⟩
        ⟨true, some (GoError.parseError "flags"), true, none, false, none, none, none⟩
        ⟨[deletionFinalizer], true, some [], ⟨"p", "r", "bad"⟩,
          ⟨"Deleting", []⟩⟩).obj.status.state = CustomStateError ∧
    Effect.statusUpdate ⟨"Error", []⟩ ∈
      (Reconcile ObjRep.typed ⟨false, false, []⟩
        ⟨true, some (GoError.parseError "flags"), true, none, false, none, none, none⟩
        ⟨[deletionFinalizer], true, some [], ⟨"p", "r", "bad"⟩, ⟨"Deleting", []⟩⟩).trace := by
  refine ⟨rfl, rfl, ?_⟩
  decide

/-- C4 amended: once `Deleting`, a pass never sets `Empty`, `Processing` or
`Ready`; the state stays `Deleting` except that a failed chart-flag parse
(or, on the generic handler path, a failed `Uninstall`) commits `Error`. -/
theorem C4_amended_deleting_only_deleting_or_error (rep : ObjRep) (opts : manifestOptions)
    (env : Env) (res : Resource) (h : res.status.state = CustomStateDeleting) :
    ((Reconcile rep opts env res).obj.status.state = CustomStateDeleting ∨
      (Reconcile rep opts env res).obj.status.state = CustomStateError) ∧
    ∀ st : CustomObjectStatus, Effect.statusUpdate st ∈ (Reconcile rep opts env res).trace →
      st.state = CustomStateDeleting ∨ st.state = CustomStateError := by
  cases rep with
  | generic => exact ⟨Or.inl (by simpa [Reconcile] using h), by simp [Reconcile]⟩
  | typed =>
    by_cases hf : env.found = true
    · have hnp : ¬(res.deletionRequested = true ∧ res.status.state ≠ CustomStateDeleting) := by
        simp [h]
      by_cases hfin : deletionFinalizer ∈ res.finalizers
      · rw [reconcile_dispatch opts env res hf hnp hfin]
        rw [h]
        simp only [CustomStateDeleting, CustomStateProcessing, CustomStateError,
          CustomStateReady]
        norm_num
        rw [handleDeleting_typed]
        cases hp : env.flagsParseErr with
        | some e =>
          refine ⟨Or.inr rfl, ?_⟩
          intro st hst
          have h2 : st = { res.status with state := CustomStateError } := by simpa using hst
          rw [h2]
          exact Or.inr rfl
        | none => exact ⟨Or.inl (by simpa using h), by simp⟩
      · rw [reconcile_add_finalizer opts env res hf hnp hfin]
        exact ⟨Or.inl (by simpa using h), by simp⟩
    · have hf0 : env.found = false := by
        cases hb : env.found
        · rfl
        · exact absurd hb hf
      exact ⟨Or.inl (by simpa [Reconcile, hf0] using h), by simp [Reconcile, hf0]⟩

/-- Witness for the amended C4: a `Deleting` resource with parsable flags
stays `Deleting` (the pass panics in `prepareInstallInfo` without touching
the status). -/
theorem C4_amended_witness :
    (⟨[deletionFinalizer], true, some [], ⟨"p", "r", ""⟩,
        ⟨"Deleting", []⟩⟩ : Resource).status.state = CustomStateDeleting ∧
    ((Reconcile ObjRep.typed ⟨false, false, []⟩ ⟨true, none, true, none, false, none, none, none⟩
        ⟨[deletionFinalizer], true, some [], ⟨"p", "r", ""⟩,
          ⟨"Deleting", []⟩⟩).obj.status.state = CustomStateDeleting ∨
      (Reconcile ObjRep.typed ⟨false, false, []⟩ ⟨true, none, true, none, false, none, none, none⟩
        ⟨[deletionFinalizer], true, some [], ⟨"p", "r", ""⟩,
          ⟨"Deleting", []⟩⟩).obj.status.state = CustomStateError) :=
  ⟨rfl,
    (C4_amended_deleting_only_deleting_or_error ObjRep.typed ⟨false, false, []⟩
        ⟨true, none, true, none, false, none, none, none⟩
        ⟨[deletionFinalizer], true, some [], ⟨"p", "r", ""⟩, ⟨"Deleting", []⟩⟩ rfl).1⟩

/-- C5: on a `Processing` resource whose installer would fail, the pass
never reaches `Install` at all: it panics on the nil
`*unstructured.Unstructured` pointer in `prepareInstallInfo`, commits
nothing, records no condition, and propagates no `Error` state — against
the claimed recoverable `Install`-error handling (which moreover never
appends to `status.Conditions` even in the handler's code). -/
theorem C5_install_error_path_unreachable :
    (Reconcile ObjRep.typed ⟨false, false, []⟩
        ⟨true, none, false, some (GoError.installerError "install failed"), false, none, none,
          none⟩
        ⟨[deletionFinalizer], false, some [], ⟨"p", "r", ""⟩, ⟨"Processing", []⟩⟩).outcome =
      Outcome.panicked nilPointerPanicMsg ∧
    (Reconcile ObjRep.typed ⟨false, false, []⟩
        ⟨true, none, false, some (GoError.installerError "install failed"), false, none, none,
          none⟩
        ⟨[deletionFinalizer], false, some [], ⟨"p", "r", ""⟩, ⟨"Processing", []⟩⟩).trace = [] ∧
    (Reconcile ObjRep.typed ⟨false, false, []⟩
        ⟨true, none, false, some (GoError.installerError "install failed"), false, none, none,
          none⟩
        ⟨[deletionFinalizer], false, some [], ⟨"p", "r", ""⟩, ⟨"Processing", []⟩⟩).obj =
      ⟨[deletionFinalizer], false, some [], ⟨"p", "r", ""⟩, ⟨"Processing", []⟩⟩ :=
  ⟨rfl, rfl, rfl⟩

/-- Counterexample to C6 as stated: a `Processing` pass whose chart flags
fail to parse is not fatal — `Reconcile` returns nil and the status is
advanced to `Error` and committed. -/
theorem C6_counterexample :
    (Reconcile ObjRep.typed ⟨false, false, []⟩
        ⟨true, some (GoError.parseError "flags"), true, none, false, none, none, none⟩
        ⟨[deletionFinalizer], false, some [], ⟨"p", "r", "bad"⟩, ⟨"Processing", []⟩⟩).outcome =
      Outcome.ok ∧
    (Reconcile ObjRep.typed ⟨false, false, []⟩
        ⟨true, some (GoError.parseError "flags"), true, none, false, none, none, none⟩
        ⟨[deletionFinalizer], false, some [], ⟨"p", "r", "bad"⟩, ⟨"Processing", []⟩⟩).trace =
      [Effect.statusUpdate ⟨"Error", []⟩] :=
  ⟨rfl, rfl⟩

/-- C6 amended: a chart-flag parse failure in a `Processing` or `Deleting`
pass sets `status.State` to `Error` and commits it; `Reconcile` returns the
commit's own result (nil on success), not the parse error.  (Only the
`prepareInstallInfo` type-mismatch failure is surfaced with the status
unadvanced.) -/
theorem C6_amended_flag_parse_error_commits_error (opts : manifestOptions) (env : Env)
    (res : Resource) (e : GoError) (hf : env.found = true)
    (hfin : deletionFinalizer ∈ res.finalizers) (hp : env.flagsParseErr = some e)
    (hstate : (res.status.state = CustomStateProcessing ∧ res.deletionRequested = false) ∨
      res.status.state = CustomStateDeleting) :
    (Reconcile ObjRep.typed opts env res).trace =
        [Effect.statusUpdate { res.status with state := CustomStateError }] ∧
      (Reconcile ObjRep.typed opts env res).outcome = errToOutcome env.statusUpdateErr ∧
      (Reconcile ObjRep.typed opts env res).obj.status.state = CustomStateError := by
  rcases hstate with ⟨hs, hd⟩ | hs
  · have hnp : ¬(res.deletionRequested = true ∧ res.status.state ≠ CustomStateDeleting) := by
      simp [hd]
    rw [reconcile_dispatch opts env res hf hnp hfin, hs]
    simp only [CustomStateProcessing, CustomStateDeleting, CustomStateError, CustomStateReady]
    norm_num
    rw [handleProcessing_typed, hp]
    exact ⟨rfl, rfl, rfl⟩
  · have hnp : ¬(res.deletionRequested = true ∧ res.status.state ≠ CustomStateDeleting) := by
      simp [hs]
    rw [reconcile_dispatch opts env res hf hnp hfin, hs]
    simp only [CustomStateProcessing, CustomStateDeleting, CustomStateError, CustomStateReady]
    norm_num
    rw [handleDeleting_typed, hp]
    exact ⟨rfl, rfl, rfl⟩

/-- Witness for the amended C6 on a concrete `Processing` resource with
unparsable flags. -/
theorem C6_amended_witness :
    (⟨true, some (GoError.parseError "flags"), true, none, false, none, none, none⟩ : Env).found =
        true ∧
    (Reconcile ObjRep.typed ⟨false, false, []⟩
        ⟨true, some (GoError.parseError "flags"), true, none, false, none, none, none⟩
        ⟨[deletionFinalizer], false, some [], ⟨"p", "r", "x"⟩, ⟨"Processing", []⟩⟩).trace =
      [Effect.statusUpdate ⟨"Error", []⟩] :=
  ⟨rfl,
    (C6_amended_flag_parse_error_commits_error ⟨false, false, []⟩
        ⟨true, some (GoError.parseError "flags"), true, none, false, none, none, none⟩
        ⟨[deletionFinalizer], false, some [], ⟨"p", "r", "x"⟩, ⟨"Processing", []⟩⟩
        (GoError.parseError "flags") rfl (by decide) rfl (Or.inl ⟨rfl, rfl⟩)).1⟩

/-- C7: for every strongly-typed resource, `prepareInstallInfo` does not
build an `InstallInfo` at all — it always panics dereferencing the nil
`*unstructured.Unstructured` pointer before storing the conversion result. -/
theorem C7_prepareInstallInfo_typed_panics (obj : Resource) (chartPath releaseName : String) :
    prepareInstallInfo ObjRep.typed obj chartPath releaseName =
      GoResult.panicked nilPointerPanicMsg :=
  rfl

/-- C8: driving one pass over the same logical resource through the typed
and through the generic representation does not yield the same committed
state sequence: the typed pass commits `Processing`, while the generic pass
fails the `types.CustomObject` assertion at the top of `Reconcile` and
commits nothing. -/
theorem C8_representation_divergence :
    (Reconcile ObjRep.typed ⟨false, false, []⟩ ⟨true, none, true, none, false, none, none, none⟩
        ⟨[deletionFinalizer], false, some [], ⟨"p", "r", ""⟩, ⟨"", []⟩⟩).trace =
      [Effect.statusUpdate ⟨"Processing", []⟩] ∧
    (Reconcile ObjRep.generic ⟨false, false, []⟩ ⟨true, none, true, none, false, none, none, none⟩
        ⟨[deletionFinalizer], false, some [], ⟨"p", "r", ""⟩, ⟨"", []⟩⟩).trace = [] ∧
    (Reconcile ObjRep.generic ⟨false, false, []⟩ ⟨true, none, true, none, false, none, none, none⟩
        ⟨[deletionFinalizer], false, some [], ⟨"p", "r", ""⟩, ⟨"", []⟩⟩).outcome =
      Outcome.err (getTypeError "req") ∧
    (Reconcile ObjRep.typed ⟨false, false, []⟩ ⟨true, none, true, none, false, none, none, none⟩
        ⟨[deletionFinalizer], false, some [], ⟨"p", "r", ""⟩, ⟨"", []⟩⟩).trace ≠
      (Reconcile ObjRep.generic ⟨false, false, []⟩ ⟨true, none, true, none, false, none, none, none⟩
        ⟨[deletionFinalizer], false, some [], ⟨"p", "r", ""⟩, ⟨"", []⟩⟩).trace := by
  refine ⟨rfl, rfl, rfl, ?_⟩
  decide

/-- Counterexample to C9 as stated: with resource labels pending in the
engine options, the first pass applies and clears them (mutating the
reconciler's own `options` field), so a second pass from the identical
persisted resource performs different actions — passes are not replayable
from the persisted status alone. -/
theorem C9_counterexample :
    (Reconcile ObjRep.typed ⟨false, false, [("k", "v")]⟩
          ⟨true, none, true, none, false, none, none, none⟩
          ⟨[deletionFinalizer], false, some [], ⟨"p", "r", ""⟩, ⟨"", []⟩⟩).opts ≠
        ⟨false, false, [("k", "v")]⟩ ∧
    (Reconcile ObjRep.typed ⟨false, false, [("k", "v")]⟩
          ⟨true, none, true, none, false, none, none, none⟩
          ⟨[deletionFinalizer], false, some [], ⟨"p", "r", ""⟩, ⟨"", []⟩⟩).trace ≠
      (Reconcile ObjRep.typed
          (Reconcile ObjRep.typed ⟨false, false, [("k", "v")]⟩
            ⟨true, none, true, none, false, none, none, none⟩
            ⟨[deletionFinalizer], false, some [], ⟨"p", "r", ""⟩, ⟨"", []⟩⟩).opts
          ⟨true, none, true, none, false, none, none, none⟩
          ⟨[deletionFinalizer], false, some [], ⟨"p", "r", ""⟩, ⟨"", []⟩⟩).trace := by
  constructor
  · decide
  · decide

/-- C9 amended: provided the one-shot `resourceLabels` option is empty, the
engine options are unchanged by a pass, so a pass is a function of the
persisted resource and the installer behaviour alone and re-running from
the identical persisted value yields the identical pass. -/
theorem C9_amended_replayable_without_pending_labels (rep : ObjRep) (opts : manifestOptions)
    (env : Env) (res : Resource) (h : opts.resourceLabels = []) :
    (Reconcile rep opts env res).opts = opts ∧
    Reconcile rep (Reconcile rep opts env res).opts env res = Reconcile rep opts env res := by
  have h1 := reconcile_opts_invariant rep opts env res h
  exact ⟨h1, by rw [h1]⟩

/-- Witness for the amended C9 at a concrete pass with no pending labels. -/
theorem C9_amended_witness :
    (⟨false, false, []⟩ : manifestOptions).resourceLabels = [] ∧
    (Reconcile ObjRep.typed ⟨false, false, []⟩ ⟨true, none, true, none, false, none, none, none⟩
        ⟨[deletionFinalizer], false, some [], ⟨"p", "r", ""⟩, ⟨"Ready", []⟩⟩).opts =
      ⟨false, false, []⟩ :=
  ⟨rfl,
    (C9_amended_replayable_without_pending_labels ObjRep.typed ⟨false, false, []⟩
        ⟨true, none, true, none, false, none, none, none⟩
        ⟨[deletionFinalizer], false, some [], ⟨"p", "r", ""⟩, ⟨"Ready", []⟩⟩ rfl).1⟩
